import Mathlib

/-
Verification of the peony-twitter streaming-connection manager against its
natural-language specification.

The repository sources available under src/ are peony/utils.py (JSONObject
and helpers) and the test suite tests/test_stream.py.  The stream module
itself (peony/stream.py, holding StreamResponse and the backoff constants)
is not under src/: every definition below that concerns the stream session
is therefore modelled from the spec, with the exact message sequences and
status classifications pinned by the assertions of src/tests/test_stream.py.
The JSONObject development at the end of the file is a direct embedding of
src/peony/utils.py lines 34-52.
-/

namespace Peony

/-- Modelled from the spec, section 3: the five stream-session states of
peony/stream.py (not in src/); the names mirror the constants imported by
src/tests/test_stream.py. -/
inductive StreamState
  | NORMAL
  | ERROR
  | DISCONNECTION
  | RECONNECTION
  | ENHANCE_YOUR_CALM
deriving DecidableEq

/-- Modelled from the spec, sections 4.2 and 7: the kinds of typed fatal and
payload errors the classifier can report.  StreamLimit is the payload-level
stream-cap error asserted by test_stream_reconnection_stream_limit. -/
inductive ErrorKind
  | Forbidden
  | NotFound
  | Unauthorized
  | BadRequest
  | StreamLimit
  | UnhandledException
  | Unknown
deriving DecidableEq

/-- Modelled from the spec, section 4.2: transport-level exception types.
The first three stand for the small fixed set of handled exception types
(HandledErrors plus the client-connection error of
test_stream_reconnection_client_connection_error); otherError stands for
any exception outside that set. -/
inductive TransportExc
  | timeoutError
  | clientPayloadError
  | clientConnectionError
  | otherError
deriving DecidableEq

/-- Modelled from the spec, section 4.2: membership in the fixed set of
transport exception types treated as recoverable rather than fatal. -/
def isHandled : TransportExc → Bool
  | .otherError => false
  | _ => true

/-- Modelled from the spec, section 6: one event produced by the line source
of an open connection: either a raw line of payload or a raised transport
exception. -/
inductive LineEvent
  | line (s : String)
  | exc (e : TransportExc)
deriving DecidableEq

/-- Modelled from the spec, section 6: the scripted result of one
open-connection attempt: an HTTP status plus the sequence of line events the
connection will produce.  Mirrors the MockResponse scripts of
src/tests/test_stream.py. -/
structure ConnOutcome where
  status : Nat
  events : List LineEvent
deriving DecidableEq

/-- Modelled from the spec, section 3: a StreamMessage yielded to the
caller: the synthetic connected and stream-restart control messages, the
reconnecting-in control message carrying the scheduled delay and an optional
error kind, or a decoded data line. -/
inductive Message
  | connected
  | streamRestart
  | reconnectingIn (delay : ℚ) (error : Option ErrorKind)
  | data (payload : String)
deriving DecidableEq

/-- Modelled from the spec, sections 3 and 4.4: the immutable per-state
backoff configuration (initial timeout and maximum per failure class).
The concrete numeric constants live in peony/stream.py, which is not in
src/, so they stay abstract here. -/
structure BackoffConfig where
  disconnectionTimeout : ℚ
  maxDisconnectionTimeout : ℚ
  reconnectionTimeout : ℚ
  maxReconnectionTimeout : ℚ
  enhanceYourCalmTimeout : ℚ
  errorTimeout : ℚ
deriving DecidableEq

/-- Modelled from the spec, section 4.1: the error-timeout update applied on
each retry.  DISCONNECTION grows linearly and RECONNECTION doubles, each
clamped to its maximum per the tie-break sentence of section 4.1; ERROR uses
the fixed error timeout.  ENHANCE_YOUR_CALM doubles without any cap: the
test test_stream_reconnection_enhance_your_calm in src/ asserts unclamped
doubling through one hundred turns, and the import list of the tests has no
enhance-your-calm maximum constant. -/
def nextErrorTimeout (cfg : BackoffConfig) : StreamState → ℚ → ℚ
  | .NORMAL, t => t
  | .ERROR, _ => cfg.errorTimeout
  | .DISCONNECTION, t =>
      min (t + cfg.disconnectionTimeout) cfg.maxDisconnectionTimeout
  | .RECONNECTION, t =>
      min (if t < cfg.reconnectionTimeout then cfg.reconnectionTimeout else 2 * t)
          cfg.maxReconnectionTimeout
  | .ENHANCE_YOUR_CALM, t =>
      if t < cfg.enhanceYourCalmTimeout then cfg.enhanceYourCalmTimeout else 2 * t

/-- Modelled from the spec, section 4.2: result of classifying the status of
a completed connection attempt: a 2xx success, a retryable failure entering
the given state, or a fatal error of the given kind. -/
inductive StatusClass
  | success
  | retry (st : StreamState)
  | fatalError (kind : ErrorKind)
deriving DecidableEq

/-- Modelled from the spec, sections 4.2 and 7: the typed error kind of a
fatal status (authorization failure, not-found, malformed request, anything
unmapped defaults to Unknown). -/
def fatalKind (status : Nat) : ErrorKind :=
  if status = 400 then .BadRequest
  else if status = 401 then .Unauthorized
  else if status = 403 then .Forbidden
  else if status = 404 then .NotFound
  else .Unknown

/-- Modelled from the spec, section 4.2: the table-driven status classifier.
The retryable rows are pinned by src/tests/test_stream.py: status 500 enters
DISCONNECTION, the remaining 5xx statuses enter RECONNECTION, the rate-limit
statuses 420 and 429 enter ENHANCE_YOUR_CALM, and any other non-2xx status
is fatal. -/
def classifyStatus (status : Nat) : StatusClass :=
  if 200 ≤ status ∧ status < 300 then .success
  else if status = 500 then .retry .DISCONNECTION
  else if 501 ≤ status ∧ status ≤ 599 then .retry .RECONNECTION
  else if status = 420 ∨ status = 429 then .retry .ENHANCE_YOUR_CALM
  else .fatalError (fatalKind status)

/-- Whether a status is classified as fatal by the classifier. -/
def isFatalStatus (status : Nat) : Bool :=
  match classifyStatus status with
  | .fatalError _ => true
  | _ => false

/-- Modelled from the spec, sections 3 and 4.1: the stream session.  The
state, the retry counter realised as the current error timeout, the
reconnecting flag, the line events remaining in the current connection
(none before any connection was opened), and the remaining scripted
connection outcomes of the transport. -/
structure StreamResponse where
  state : StreamState
  errorTimeout : ℚ
  reconnecting : Bool
  current : Option (List LineEvent)
  script : List ConnOutcome
deriving DecidableEq

/-- Modelled from the spec, section 3: the retry counter is reset to zero
whenever the state changes; setting the same state again keeps the counter. -/
def setState (s : StreamResponse) (st : StreamState) : StreamResponse :=
  if s.state = st then { s with state := st }
  else { s with state := st, errorTimeout := 0 }

/-- Modelled from the spec, sections 4.1 and 6: one connection attempt.  A
2xx success moves to NORMAL and resets the retry counter; a retryable status
moves to the matching failure state (resetting the counter only when the
state changes); a fatal status fails with its typed error kind and touches
no session state. -/
def connectAttempt (s : StreamResponse) (o : ConnOutcome) :
    Except ErrorKind StreamResponse :=
  match classifyStatus o.status with
  | .success =>
      .ok { s with state := .NORMAL, errorTimeout := 0, current := some o.events }
  | .retry st => .ok { setState s st with current := some o.events }
  | .fatalError k => .error k

/-- Modelled from the spec, section 4.1: result of one pull on the session:
a message together with the successor session, a fatal typed failure ending
the sequence, or exhaustion of the scripted transport. -/
inductive Pull
  | msg (m : Message) (next : StreamResponse)
  | fatalStop (kind : ErrorKind)
  | stop
deriving DecidableEq

/-- Modelled from the spec, section 8, line-decoder contract: a keep-alive
is an empty or whitespace-only line, swallowed without being yielded. -/
def isKeepAlive (s : String) : Bool :=
  s.data.all Char.isWhitespace

/-- Payload text announcing that the account exceeded its concurrent-stream
cap, as scripted by response_stream_limit in src/tests/test_stream.py. -/
def rateLimitNotice : String :=
  "Exceeded connection limit for user"

/-- Modelled from the spec, sections 4.2 and 9: the stream-limit condition
is detected by matching the payload text of a line. -/
def isStreamLimitLine (s : String) : Bool :=
  s == rateLimitNotice

/-- Modelled from the spec, section 4.1, step 3: entering the retry path
while in a failure state computes the next timeout, marks the session as
reconnecting and yields the reconnecting-in control message before the delay
elapses. -/
def initRestart (cfg : BackoffConfig) (s : StreamResponse) : Pull :=
  .msg (.reconnectingIn (nextErrorTimeout cfg s.state s.errorTimeout) none)
    { s with errorTimeout := nextErrorTimeout cfg s.state s.errorTimeout,
             reconnecting := true }

/-- Modelled from the spec, sections 4.1 and 4.3: pulling lines from the
open connection.  Keep-alive lines are swallowed; the stream-limit payload
moves to ERROR with the fixed error timeout carrying the stream-limit error;
a handled transport exception moves to ERROR with the fixed error timeout
and no error kind; any other exception is fatal; an exhausted line source
counts as a disconnection; a decoded line resets the counter, keeps the
state NORMAL and yields the data message. -/
def pullLine (cfg : BackoffConfig) (s : StreamResponse) :
    List LineEvent → Pull
  | [] =>
      .msg (.reconnectingIn
              (nextErrorTimeout cfg .DISCONNECTION (setState s .DISCONNECTION).errorTimeout)
              none)
        { setState s .DISCONNECTION with
            errorTimeout :=
              nextErrorTimeout cfg .DISCONNECTION (setState s .DISCONNECTION).errorTimeout,
            reconnecting := true, current := none }
  | .exc e :: _ =>
      if isHandled e then
        .msg (.reconnectingIn cfg.errorTimeout none)
          { s with state := .ERROR, errorTimeout := cfg.errorTimeout,
                   reconnecting := true, current := none }
      else .fatalStop .UnhandledException
  | .line str :: rest =>
      if isKeepAlive str then pullLine cfg s rest
      else if isStreamLimitLine str then
        .msg (.reconnectingIn cfg.errorTimeout (some .StreamLimit))
          { s with state := .ERROR, errorTimeout := cfg.errorTimeout,
                   reconnecting := true, current := none }
      else
        .msg (.data str)
          { s with state := .NORMAL, errorTimeout := 0, current := some rest }

/-- Modelled from the spec, section 4.1: one pull on the session.  A session
marked reconnecting re-establishes the connection and yields the
stream-restart message; a session that never connected performs the initial
connection and yields the connected message; otherwise a session in a
failure state schedules a retry, and a NORMAL session pulls the next line. -/
def step (cfg : BackoffConfig) (s : StreamResponse) : Pull :=
  if s.reconnecting then
    match s.script with
    | [] => .stop
    | o :: rest =>
      match connectAttempt { s with script := rest, reconnecting := false } o with
      | .ok s2 => .msg .streamRestart s2
      | .error k => .fatalStop k
  else
    match s.current with
    | none =>
      match s.script with
      | [] => .stop
      | o :: rest =>
        match connectAttempt { s with script := rest } o with
        | .ok s2 => .msg .connected s2
        | .error k => .fatalStop k
    | some events =>
      if s.state = .NORMAL then pullLine cfg s events else initRestart cfg s

/-- A fresh session over a scripted transport: NORMAL state, zero retry
counter, no connection opened yet. -/
def mkSession (script : List ConnOutcome) : StreamResponse :=
  ⟨.NORMAL, 0, false, none, script⟩

/-- The lazy message sequence of the session, truncated to the given number
of pulls; the sequence ends early on a fatal failure or script exhaustion. -/
def run (cfg : BackoffConfig) (s : StreamResponse) : Nat → List Message
  | 0 => []
  | n + 1 =>
    match step cfg s with
    | .msg m s2 => m :: run cfg s2 n
    | _ => []

/-- A scripted connection outcome with the given status and no payload. -/
def statusOut (status : Nat) : ConnOutcome := ⟨status, []⟩

/-- Timeout value after a number of consecutive retries in one state. -/
def failIter (cfg : BackoffConfig) (st : StreamState) : ℚ → Nat → ℚ
  | t, 0 => t
  | t, k + 1 => failIter cfg st (nextErrorTimeout cfg st t) k

/-- Successive scheduled delays over consecutive retries in one state. -/
def failDelays (cfg : BackoffConfig) (st : StreamState) : ℚ → Nat → List ℚ
  | _, 0 => []
  | t, k + 1 =>
      nextErrorTimeout cfg st t :: failDelays cfg st (nextErrorTimeout cfg st t) k

/-- The alternating control-message pairs produced by a run of consecutive
retries: each scheduled delay contributes a reconnecting-in message carrying
no error followed by a stream-restart message. -/
def pairTrace : List ℚ → List Message
  | [] => []
  | d :: ds => .reconnectingIn d none :: .streamRestart :: pairTrace ds

/-- A sample backoff configuration used to evaluate the theorems on concrete
inputs; it satisfies the positivity and ordering constraints of the spec,
section 4.1 (the real numeric constants of peony/stream.py are not in
src/). -/
def sampleConfig : BackoffConfig :=
  ⟨1/4, 16, 5, 320, 60, 10⟩

/-- Embedding of the JSONObject class of src/peony/utils.py, lines 34-52: a
dict in which items can be accessed as attributes.  The underlying dict is
an association list keyed by strings. -/
structure JSONObject (α : Type) where
  entries : List (String × α)
deriving DecidableEq

/-- Outcome of an attribute or item operation on a JSONObject: either a
returned value or a raised AttributeError. -/
inductive AttrOutcome (α : Type)
  | value (a : α)
  | attributeError
deriving DecidableEq

/-- Item access of the underlying dict: the value stored under the key, when
present. -/
def getItem (o : JSONObject α) (key : String) : Option α :=
  o.entries.lookup key

/-- Embeds JSONObject.__getattr__ of src/peony/utils.py lines 43-47: when
the key is in the dict, return the corresponding item; otherwise raise
AttributeError. -/
def getAttr (o : JSONObject α) (key : String) : AttrOutcome α :=
  match getItem o key with
  | some v => .value v
  | none => .attributeError

/-- Embeds JSONObject.__setattr__ of src/peony/utils.py lines 49-51: every
attribute assignment raises AttributeError before touching the dict, so no
modified mapping is ever produced. -/
def setAttr (_o : JSONObject α) (_key : String) (_v : α) :
    AttrOutcome (JSONObject α) :=
  .attributeError

/-- Embeds JSONObject.__delattr__ (aliased to __setattr__ on line 52 of
src/peony/utils.py): always raises AttributeError. -/
def delAttr (_o : JSONObject α) (_key : String) : AttrOutcome (JSONObject α) :=
  .attributeError

/-- Embeds JSONObject.__setitem__ (aliased to __setattr__ on line 52 of
src/peony/utils.py): always raises AttributeError. -/
def setItem (_o : JSONObject α) (_key : String) (_v : α) :
    AttrOutcome (JSONObject α) :=
  .attributeError

/-- Embeds JSONObject.__delitem__ (aliased to __setattr__ on line 52 of
src/peony/utils.py): always raises AttributeError. -/
def delItem (_o : JSONObject α) (_key : String) : AttrOutcome (JSONObject α) :=
  .attributeError

/-- Unfolding of one pull of the truncated message sequence. -/
lemma run_succ (cfg : BackoffConfig) (s : StreamResponse) (n : Nat) :
    run cfg s (n + 1) =
      match step cfg s with
      | .msg m s2 => m :: run cfg s2 n
      | _ => [] := rfl

/-- A session waiting in a failure state with an open connection schedules a
retry on the next pull. -/
lemma step_initRestart (cfg : BackoffConfig) (st : StreamState) (t : ℚ)
    (evs : List LineEvent) (sc : List ConnOutcome) (hst : st ≠ .NORMAL) :
    step cfg ⟨st, t, false, some evs, sc⟩
      = .msg (.reconnectingIn (nextErrorTimeout cfg st t) none)
          ⟨st, nextErrorTimeout cfg st t, true, some evs, sc⟩ := by
  simp [step, initRestart, hst]

/-- A reconnecting session whose next scripted status is retryable for its
own state re-establishes the connection, keeps its timeout and yields the
stream-restart message. -/
lemma step_restart_retry (cfg : BackoffConfig) (c : Nat) (st : StreamState)
    (hc : classifyStatus c = .retry st) (t : ℚ) (cur : Option (List LineEvent))
    (evs : List LineEvent) (rest : List ConnOutcome) :
    step cfg ⟨st, t, true, cur, ⟨c, evs⟩ :: rest⟩
      = .msg .streamRestart ⟨st, t, false, some evs, rest⟩ := by
  simp [step, connectAttempt, hc, setState]

/-- A reconnecting session whose next scripted status is a 2xx success
re-establishes the connection, moves to NORMAL with a zero retry counter and
yields the stream-restart message. -/
lemma step_restart_success (cfg : BackoffConfig) (c : Nat)
    (hc : classifyStatus c = .success) (st : StreamState) (t : ℚ)
    (cur : Option (List LineEvent)) (evs : List LineEvent)
    (rest : List ConnOutcome) :
    step cfg ⟨st, t, true, cur, ⟨c, evs⟩ :: rest⟩
      = .msg .streamRestart ⟨.NORMAL, 0, false, some evs, rest⟩ := by
  simp [step, connectAttempt, hc]

/-- The initial pull of a fresh session performs the first connection; a
retryable status enters its failure state with a zero retry counter and the
connected message is produced. -/
lemma step_connect_retry (cfg : BackoffConfig) (c : Nat) (st : StreamState)
    (hc : classifyStatus c = .retry st) (hst : st ≠ .NORMAL)
    (evs : List LineEvent) (rest : List ConnOutcome) :
    step cfg (mkSession (⟨c, evs⟩ :: rest))
      = .msg .connected ⟨st, 0, false, some evs, rest⟩ := by
  have h2 : (StreamState.NORMAL = st) = False := by
    simp [eq_comm]; exact hst
  simp [step, mkSession, connectAttempt, hc, setState, h2]

/-- The initial pull of a fresh session whose first scripted status is a 2xx
success connects, stays NORMAL and produces the connected message. -/
lemma step_connect_success (cfg : BackoffConfig) (c : Nat)
    (hc : classifyStatus c = .success) (evs : List LineEvent)
    (rest : List ConnOutcome) :
    step cfg (mkSession (⟨c, evs⟩ :: rest))
      = .msg .connected ⟨.NORMAL, 0, false, some evs, rest⟩ := by
  simp [step, mkSession, connectAttempt, hc]

/-- A NORMAL session whose next line is a decodable payload yields the data
message and resets the retry counter. -/
lemma step_data (cfg : BackoffConfig) (t : ℚ) (p : String)
    (hka : isKeepAlive p = false) (hsl : isStreamLimitLine p = false)
    (evs : List LineEvent) (sc : List ConnOutcome) :
    step cfg ⟨.NORMAL, t, false, some (.line p :: evs), sc⟩
      = .msg (.data p) ⟨.NORMAL, 0, false, some evs, sc⟩ := by
  simp [step, pullLine, hka, hsl]

/-- A run of consecutive same-state retries produces the alternating pairs
of reconnecting-in and stream-restart messages, with the timeout evolving by
the per-state update. -/
lemma run_retry (cfg : BackoffConfig) (c : Nat) (st : StreamState)
    (hc : classifyStatus c = .retry st) (hst : st ≠ .NORMAL) (k : Nat) :
    ∀ (t : ℚ) (n : Nat) (rest : List ConnOutcome),
      run cfg ⟨st, t, false, some [], List.replicate k (statusOut c) ++ rest⟩
          (2 * k + n)
        = pairTrace (failDelays cfg st t k)
          ++ run cfg ⟨st, failIter cfg st t k, false, some [], rest⟩ n := by
  induction k with
  | zero =>
      intro t n rest
      simp [failDelays, failIter, pairTrace]
  | succ k ih =>
      intro t n rest
      simp only [statusOut] at ih ⊢
      have harith : 2 * (k + 1) + n = 2 * k + n + 1 + 1 := by ring
      rw [harith, List.replicate_succ, List.cons_append, run_succ,
        step_initRestart cfg st t _ _ hst]
      dsimp only
      rw [run_succ, step_restart_retry cfg c st hc]
      dsimp only
      rw [ih (nextErrorTimeout cfg st t) n rest]
      simp [failDelays, failIter, pairTrace]

/-- Clamped linear growth: adding the base to a clamped value and clamping
again clamps the unclamped sum. -/
lemma min_add_clamp (x b M : ℚ) (hb : 0 ≤ b) :
    min (min x M + b) M = min (x + b) M := by
  rw [← min_add_add_right, min_assoc, min_eq_right (by linarith : M ≤ M + b)]

/-- Closed form of the DISCONNECTION delay run started from a clamped
value. -/
lemma failDelays_disc_aux (cfg : BackoffConfig)
    (hb : 0 ≤ cfg.disconnectionTimeout) :
    ∀ (k : Nat) (x : ℚ),
      failDelays cfg .DISCONNECTION (min x cfg.maxDisconnectionTimeout) k
        = (List.range k).map (fun (j : Nat) =>
            min (x + ((j : ℚ) + 1) * cfg.disconnectionTimeout)
              cfg.maxDisconnectionTimeout) := by
  intro k
  induction k with
  | zero => intro x; simp [failDelays]
  | succ k ih =>
      intro x
      rw [List.range_succ_eq_map]
      have hupd : nextErrorTimeout cfg .DISCONNECTION
          (min x cfg.maxDisconnectionTimeout)
          = min (x + cfg.disconnectionTimeout) cfg.maxDisconnectionTimeout :=
        min_add_clamp x cfg.disconnectionTimeout cfg.maxDisconnectionTimeout hb
      rw [failDelays, hupd, ih (x + cfg.disconnectionTimeout)]
      simp only [List.map_cons, List.map_map]
      congr 1
      · norm_num
      · refine List.map_congr_left ?_
        intro j _
        simp only [Function.comp_apply]
        congr 1
        push_cast
        ring

/-- Closed form of the DISCONNECTION delays from a fresh failure run: the
j-th scheduled delay is the linear term clamped at the maximum. -/
lemma failDelays_disc (cfg : BackoffConfig)
    (hb : 0 ≤ cfg.disconnectionTimeout) (k : Nat) :
    failDelays cfg .DISCONNECTION 0 k
      = (List.range k).map (fun (j : Nat) =>
          min (((j : ℚ) + 1) * cfg.disconnectionTimeout)
            cfg.maxDisconnectionTimeout) := by
  cases k with
  | zero => simp [failDelays]
  | succ k =>
      rw [List.range_succ_eq_map, failDelays]
      have hupd : nextErrorTimeout cfg .DISCONNECTION 0
          = min (cfg.disconnectionTimeout) cfg.maxDisconnectionTimeout := by
        simp [nextErrorTimeout]
      rw [hupd, failDelays_disc_aux cfg hb k cfg.disconnectionTimeout]
      simp only [List.map_cons, List.map_map]
      congr 1
      · norm_num
      · refine List.map_congr_left ?_
        intro j _
        simp only [Function.comp_apply]
        congr 1
        push_cast
        ring

/-- One RECONNECTION update on a clamped power of two doubles the power and
clamps again. -/
lemma recon_upd (cfg : BackoffConfig) (hb : 0 < cfg.reconnectionTimeout)
    (i : Nat) :
    nextErrorTimeout cfg .RECONNECTION
        (min (cfg.reconnectionTimeout * 2 ^ i) cfg.maxReconnectionTimeout)
      = min (cfg.reconnectionTimeout * 2 ^ (i + 1))
          cfg.maxReconnectionTimeout := by
  set b := cfg.reconnectionTimeout with hbdef
  set M := cfg.maxReconnectionTimeout with hMdef
  have hpow : (1 : ℚ) ≤ 2 ^ i := by
    exact_mod_cast Nat.one_le_two_pow
  have hpow2 : (1 : ℚ) ≤ 2 ^ (i + 1) := by
    exact_mod_cast Nat.one_le_two_pow
  have hble : b ≤ b * 2 ^ i := le_mul_of_one_le_right hb.le hpow
  by_cases hx : min (b * 2 ^ i) M < b
  · have hM : M < b := by
      rcases min_cases (b * 2 ^ i) M with ⟨heq, _⟩ | ⟨heq, hle⟩
      · rw [heq] at hx; linarith
      · rw [heq] at hx; exact hx
    have h1 : min (b * 2 ^ i) M = M := min_eq_right (by linarith)
    have h2 : min (b * 2 ^ (i + 1)) M = M :=
      min_eq_right (by nlinarith [le_mul_of_one_le_right hb.le hpow2])
    rw [nextErrorTimeout, if_pos hx, h2, min_eq_right hM.le]
  · rw [nextErrorTimeout, if_neg hx]
    push_neg at hx
    have hM0 : 0 ≤ M := le_trans (le_trans hb.le hx) (min_le_right _ _)
    rw [mul_min_of_nonneg _ _ (by norm_num : (0:ℚ) ≤ 2)]
    rw [min_assoc]
    congr 1
    · ring
    · exact min_eq_right (by linarith)

/-- Closed form of the RECONNECTION delay run started from a clamped power
of two. -/
lemma failDelays_recon_aux (cfg : BackoffConfig)
    (hb : 0 < cfg.reconnectionTimeout) :
    ∀ (k i : Nat),
      failDelays cfg .RECONNECTION
          (min (cfg.reconnectionTimeout * 2 ^ i) cfg.maxReconnectionTimeout) k
        = (List.range k).map (fun j =>
            min (cfg.reconnectionTimeout * 2 ^ (i + j + 1))
              cfg.maxReconnectionTimeout) := by
  intro k
  induction k with
  | zero => intro i; simp [failDelays]
  | succ k ih =>
      intro i
      rw [List.range_succ_eq_map, failDelays, recon_upd cfg hb i, ih (i + 1)]
      simp only [List.map_cons, List.map_map]
      congr 1
      refine List.map_congr_left ?_
      intro j _
      simp only [Function.comp_apply]
      have he : i + 1 + j + 1 = i + Nat.succ j + 1 := by omega
      rw [he]

/-- Closed form of the RECONNECTION delays from a fresh failure run: the
j-th scheduled delay is the doubling term clamped at the maximum. -/
lemma failDelays_recon (cfg : BackoffConfig)
    (hb : 0 < cfg.reconnectionTimeout) (k : Nat) :
    failDelays cfg .RECONNECTION 0 k
      = (List.range k).map (fun j =>
          min (cfg.reconnectionTimeout * 2 ^ j) cfg.maxReconnectionTimeout) := by
  cases k with
  | zero => simp [failDelays]
  | succ k =>
      rw [List.range_succ_eq_map, failDelays]
      have hupd : nextErrorTimeout cfg .RECONNECTION 0
          = min (cfg.reconnectionTimeout * 2 ^ 0) cfg.maxReconnectionTimeout := by
        rw [nextErrorTimeout, if_pos hb]
        norm_num
      rw [hupd, failDelays_recon_aux cfg hb k 0]
      simp only [List.map_cons, List.map_map]
      congr 1
      · refine List.map_congr_left ?_
        intro j _
        simp only [Function.comp_apply]
        have he : 0 + j + 1 = Nat.succ j := by omega
        rw [he]

/-- One ENHANCE_YOUR_CALM update on a power of two doubles it; there is no
clamping. -/
lemma eyc_upd (cfg : BackoffConfig) (hb : 0 < cfg.enhanceYourCalmTimeout)
    (i : Nat) :
    nextErrorTimeout cfg .ENHANCE_YOUR_CALM
        (cfg.enhanceYourCalmTimeout * 2 ^ i)
      = cfg.enhanceYourCalmTimeout * 2 ^ (i + 1) := by
  have hpow : (1 : ℚ) ≤ 2 ^ i := by
    exact_mod_cast Nat.one_le_two_pow
  have hble : cfg.enhanceYourCalmTimeout
      ≤ cfg.enhanceYourCalmTimeout * 2 ^ i :=
    le_mul_of_one_le_right hb.le hpow
  rw [nextErrorTimeout, if_neg (by linarith)]
  ring

/-- Closed form of the ENHANCE_YOUR_CALM delay run started from a power of
two. -/
lemma failDelays_eyc_aux (cfg : BackoffConfig)
    (hb : 0 < cfg.enhanceYourCalmTimeout) :
    ∀ (k i : Nat),
      failDelays cfg .ENHANCE_YOUR_CALM
          (cfg.enhanceYourCalmTimeout * 2 ^ i) k
        = (List.range k).map (fun j =>
            cfg.enhanceYourCalmTimeout * 2 ^ (i + j + 1)) := by
  intro k
  induction k with
  | zero => intro i; simp [failDelays]
  | succ k ih =>
      intro i
      rw [List.range_succ_eq_map, failDelays, eyc_upd cfg hb i, ih (i + 1)]
      simp only [List.map_cons, List.map_map]
      congr 1
      refine List.map_congr_left ?_
      intro j _
      simp only [Function.comp_apply]
      have he : i + 1 + j + 1 = i + Nat.succ j + 1 := by omega
      rw [he]

/-- Closed form of the ENHANCE_YOUR_CALM delays from a fresh failure run:
the j-th scheduled delay is the unclamped doubling term. -/
lemma failDelays_eyc (cfg : BackoffConfig)
    (hb : 0 < cfg.enhanceYourCalmTimeout) (k : Nat) :
    failDelays cfg .ENHANCE_YOUR_CALM 0 k
      = (List.range k).map (fun j => cfg.enhanceYourCalmTimeout * 2 ^ j) := by
  cases k with
  | zero => simp [failDelays]
  | succ k =>
      rw [List.range_succ_eq_map, failDelays]
      have hupd : nextErrorTimeout cfg .ENHANCE_YOUR_CALM 0
          = cfg.enhanceYourCalmTimeout * 2 ^ 0 := by
        rw [nextErrorTimeout, if_pos hb]
        norm_num
      rw [hupd, failDelays_eyc_aux cfg hb k 0]
      simp only [List.map_cons, List.map_map]
      congr 1
      · refine List.map_congr_left ?_
        intro j _
        simp only [Function.comp_apply]
        have he : 0 + j + 1 = Nat.succ j := by omega
        rw [he]

/-- Each scheduled delay contributes exactly two control messages. -/
lemma pairTrace_length : ∀ ds : List ℚ, (pairTrace ds).length = 2 * ds.length
  | [] => rfl
  | _ :: ds => by
      rw [pairTrace]
      simp [pairTrace_length ds]
      ring

/-- The control-message pairs concatenate along the delay lists. -/
lemma pairTrace_append :
    ∀ ds es : List ℚ, pairTrace (ds ++ es) = pairTrace ds ++ pairTrace es
  | [], _ => rfl
  | d :: ds, es => by
      rw [List.cons_append, pairTrace, pairTrace, pairTrace_append ds es]
      rfl

/-- The message at an even offset into the control pairs is the
reconnecting-in message of the matching scheduled delay. -/
lemma pairTrace_get_even :
    ∀ (ds : List ℚ) (k : Nat),
      (pairTrace ds).get? (2 * k)
        = (ds.get? k).map (fun d => Message.reconnectingIn d none)
  | [], k => by simp [pairTrace]
  | d :: ds, 0 => by simp [pairTrace]
  | d :: ds, k + 1 => by
      have he : 2 * (k + 1) = 2 * k + 1 + 1 := by ring
      rw [pairTrace, he, List.get?_cons_succ, List.get?_cons_succ,
        pairTrace_get_even ds k, List.get?_cons_succ]

/-- A retry run schedules one delay per retry. -/
lemma failDelays_length (cfg : BackoffConfig) (st : StreamState) :
    ∀ (k : Nat) (t : ℚ), (failDelays cfg st t k).length = k
  | 0, _ => rfl
  | k + 1, t => by
      rw [failDelays]
      simp [failDelays_length cfg st k]

/-- The delays of one more retry are the delays so far followed by the
update of the accumulated timeout. -/
lemma failDelays_snoc (cfg : BackoffConfig) (st : StreamState) :
    ∀ (k : Nat) (t : ℚ),
      failDelays cfg st t (k + 1)
        = failDelays cfg st t k
          ++ [nextErrorTimeout cfg st (failIter cfg st t k)]
  | 0, t => by simp [failDelays, failIter]
  | k + 1, t => by
      show nextErrorTimeout cfg st t
            :: failDelays cfg st (nextErrorTimeout cfg st t) (k + 1)
          = (nextErrorTimeout cfg st t
              :: failDelays cfg st (nextErrorTimeout cfg st t) k) ++ _
      rw [failDelays_snoc cfg st k (nextErrorTimeout cfg st t), failIter]
      rfl

/-- The delay scheduled on the last retry of a run, extracted from a closed
form of the whole delay list. -/
lemma last_delay_eq (cfg : BackoffConfig) (st : StreamState) (k : Nat)
    (f : Nat → ℚ)
    (hcf : failDelays cfg st 0 (k + 1) = (List.range (k + 1)).map f) :
    nextErrorTimeout cfg st (failIter cfg st 0 k) = f k := by
  have h1 := failDelays_snoc cfg st k 0
  have h2 : (failDelays cfg st 0 (k + 1)).get? k
      = some (nextErrorTimeout cfg st (failIter cfg st 0 k)) := by
    rw [h1, List.get?_append_right (le_of_eq (failDelays_length cfg st k 0)),
      failDelays_length]
    simp
  rw [hcf, List.get?_map, List.get?_range (by omega)] at h2
  exact (Option.some.inj h2).symm

/-- A reconnecting session with an exhausted script stops. -/
lemma step_stop (cfg : BackoffConfig) (st : StreamState) (t : ℚ)
    (cur : Option (List LineEvent)) :
    step cfg ⟨st, t, true, cur, []⟩ = .stop := by
  simp [step]

/-- The reconnecting-in message scheduled after a run of identical retryable
failures, located at its odd position in the produced message sequence. -/
lemma run_retry_delay_at (cfg : BackoffConfig) (c : Nat) (st : StreamState)
    (hc : classifyStatus c = .retry st) (hst : st ≠ .NORMAL) (k : Nat) :
    (run cfg (mkSession (List.replicate (k + 1) (statusOut c)))
        (2 * k + 3)).get? (2 * k + 1)
      = some (.reconnectingIn
          (nextErrorTimeout cfg st (failIter cfg st 0 k)) none) := by
  rw [List.replicate_succ]
  have he : 2 * k + 3 = (2 * k + 2) + 1 := by ring
  rw [he, show statusOut c = (⟨c, []⟩ : ConnOutcome) from rfl, run_succ,
    step_connect_retry cfg c st hc hst]
  dsimp only
  have hr := run_retry cfg c st hc hst k 0 2 []
  simp only [statusOut, List.append_nil] at hr
  rw [hr]
  have hlast : run cfg ⟨st, failIter cfg st 0 k, false, some [], []⟩ 2
      = [.reconnectingIn (nextErrorTimeout cfg st (failIter cfg st 0 k)) none] := by
    rw [run_succ, step_initRestart cfg st _ _ _ hst]
    dsimp only
    rw [run_succ, step_stop]
  rw [hlast, List.get?_cons_succ,
    List.get?_append_right
      (by rw [pairTrace_length, failDelays_length] : (pairTrace (failDelays cfg st 0 k)).length ≤ 2 * k),
    pairTrace_length, failDelays_length]
  simp

/-- C1: the backoff delay is a pure deterministic function of the state and
retry count: at every odd position n of the message sequence of a pure
DISCONNECTION failure run the scheduled delay is the linear term
base times the ceiling of (n+1)/2 clamped at the disconnection maximum, and
at every odd position n of a pure RECONNECTION failure run it is the
exponential term base times 2 to the power n/2 clamped at the reconnection
maximum, each state using its own base and maximum. -/
theorem backoff_delay_closed_form (cfg : BackoffConfig)
    (hd : 0 ≤ cfg.disconnectionTimeout) (hr : 0 < cfg.reconnectionTimeout)
    (n : Nat) (hn : n % 2 = 1) :
    (run cfg (mkSession (List.replicate (n / 2 + 1) (statusOut 500)))
        (n + 2)).get? n
      = some (.reconnectingIn
          (min (cfg.disconnectionTimeout * (⌈((n : ℚ) + 1) / 2⌉ : ℚ))
            cfg.maxDisconnectionTimeout) none)
    ∧ (run cfg (mkSession (List.replicate (n / 2 + 1) (statusOut 501)))
        (n + 2)).get? n
      = some (.reconnectingIn
          (min (cfg.reconnectionTimeout * 2 ^ (n / 2))
            cfg.maxReconnectionTimeout) none) := by
  obtain ⟨k, rfl⟩ : ∃ k, n = 2 * k + 1 := ⟨n / 2, by omega⟩
  have hk : (2 * k + 1) / 2 = k := by omega
  have hf : 2 * k + 1 + 2 = 2 * k + 3 := by ring
  rw [hk, hf]
  have hceil : (⌈(((2 * k + 1 : Nat) : ℚ) + 1) / 2⌉ : ℚ) = ((k + 1 : Nat) : ℚ) := by
    have h1 : (((2 * k + 1 : Nat) : ℚ) + 1) / 2 = ((k + 1 : Nat) : ℚ) := by
      push_cast; ring
    rw [h1, Int.ceil_natCast]
    norm_cast
  constructor
  · rw [run_retry_delay_at cfg 500 .DISCONNECTION (by decide) (by decide) k,
      last_delay_eq cfg .DISCONNECTION k _ (failDelays_disc cfg hd (k + 1))]
    rw [hceil,
      show (((k : ℚ) + 1) * cfg.disconnectionTimeout)
        = cfg.disconnectionTimeout * ((k + 1 : Nat) : ℚ) from by push_cast; ring]
  · rw [run_retry_delay_at cfg 501 .RECONNECTION (by decide) (by decide) k,
      last_delay_eq cfg .RECONNECTION k _ (failDelays_recon cfg hr (k + 1))]

/-- Witness for C1 at a concrete configuration and retry position. -/
theorem backoff_delay_closed_form_witness :
    (0 : ℚ) ≤ sampleConfig.disconnectionTimeout
    ∧ (0 : ℚ) < sampleConfig.reconnectionTimeout
    ∧ 3 % 2 = 1
    ∧ ((run sampleConfig
          (mkSession (List.replicate (3 / 2 + 1) (statusOut 500)))
          (3 + 2)).get? 3
        = some (.reconnectingIn
            (min (sampleConfig.disconnectionTimeout
                * (⌈(((3 : Nat) : ℚ) + 1) / 2⌉ : ℚ))
              sampleConfig.maxDisconnectionTimeout) none)
      ∧ (run sampleConfig
          (mkSession (List.replicate (3 / 2 + 1) (statusOut 501)))
          (3 + 2)).get? 3
        = some (.reconnectingIn
            (min (sampleConfig.reconnectionTimeout * 2 ^ (3 / 2))
              sampleConfig.maxReconnectionTimeout) none)) :=
  ⟨by norm_num [sampleConfig], by norm_num [sampleConfig], by decide,
    backoff_delay_closed_form sampleConfig (by norm_num [sampleConfig])
      (by norm_num [sampleConfig]) 3 (by decide)⟩

/-- C3, amended: in the ENHANCE_YOUR_CALM state the delay at odd position n
of a pure rate-limit failure run equals base times 2 to the power n/2 with
no maximum cap, and the scheduled delays exceed every candidate cap
eventually; the ENHANCE_YOUR_CALM base is strictly larger than the
RECONNECTION base (the configuration ordering the spec stipulates, taken as
hypothesis since the numeric constants are not in src/), so each
ENHANCE_YOUR_CALM delay strictly exceeds the RECONNECTION delay scheduled at
the same retry count. -/
theorem eyc_delay_unclamped (cfg : BackoffConfig)
    (hr : 0 < cfg.reconnectionTimeout)
    (hb : cfg.reconnectionTimeout < cfg.enhanceYourCalmTimeout) :
    (∀ n : Nat, n % 2 = 1 →
      (run cfg (mkSession (List.replicate (n / 2 + 1) (statusOut 429)))
          (n + 2)).get? n
        = some (.reconnectingIn
            (cfg.enhanceYourCalmTimeout * 2 ^ (n / 2)) none))
    ∧ (∀ cap : ℚ, ∃ n : Nat, n % 2 = 1 ∧
        cap < cfg.enhanceYourCalmTimeout * 2 ^ (n / 2))
    ∧ ∀ n : Nat,
        min (cfg.reconnectionTimeout * 2 ^ (n / 2)) cfg.maxReconnectionTimeout
          < cfg.enhanceYourCalmTimeout * 2 ^ (n / 2) := by
  have hbe : 0 < cfg.enhanceYourCalmTimeout := lt_trans hr hb
  refine ⟨?_, ?_, ?_⟩
  · intro n hn
    obtain ⟨k, rfl⟩ : ∃ k, n = 2 * k + 1 := ⟨n / 2, by omega⟩
    have hk : (2 * k + 1) / 2 = k := by omega
    have hf : 2 * k + 1 + 2 = 2 * k + 3 := by ring
    rw [hk, hf]
    rw [run_retry_delay_at cfg 429 .ENHANCE_YOUR_CALM (by decide) (by decide) k,
      last_delay_eq cfg .ENHANCE_YOUR_CALM k _ (failDelays_eyc cfg hbe (k + 1))]
  · intro cap
    obtain ⟨m, hm⟩ := pow_unbounded_of_one_lt
      (cap / cfg.enhanceYourCalmTimeout) (by norm_num : (1 : ℚ) < 2)
    refine ⟨2 * m + 1, by omega, ?_⟩
    have hk : (2 * m + 1) / 2 = m := by omega
    rw [hk]
    rw [div_lt_iff hbe] at hm
    linarith
  · intro n
    have hpow : (0 : ℚ) < 2 ^ (n / 2) := pow_pos (by norm_num) _
    calc min (cfg.reconnectionTimeout * 2 ^ (n / 2)) cfg.maxReconnectionTimeout
        ≤ cfg.reconnectionTimeout * 2 ^ (n / 2) := min_le_left _ _
      _ < cfg.enhanceYourCalmTimeout * 2 ^ (n / 2) :=
          mul_lt_mul_of_pos_right hb hpow

/-- Witness for the amended C3 at a concrete configuration satisfying the
stipulated base ordering. -/
theorem eyc_delay_unclamped_witness :
    (0 : ℚ) < sampleConfig.reconnectionTimeout
    ∧ sampleConfig.reconnectionTimeout < sampleConfig.enhanceYourCalmTimeout
    ∧ ((∀ n : Nat, n % 2 = 1 →
        (run sampleConfig
            (mkSession (List.replicate (n / 2 + 1) (statusOut 429)))
            (n + 2)).get? n
          = some (.reconnectingIn
              (sampleConfig.enhanceYourCalmTimeout * 2 ^ (n / 2)) none))
      ∧ (∀ cap : ℚ, ∃ n : Nat, n % 2 = 1 ∧
          cap < sampleConfig.enhanceYourCalmTimeout * 2 ^ (n / 2))
      ∧ ∀ n : Nat,
          min (sampleConfig.reconnectionTimeout * 2 ^ (n / 2))
              sampleConfig.maxReconnectionTimeout
            < sampleConfig.enhanceYourCalmTimeout * 2 ^ (n / 2)) :=
  ⟨by norm_num [sampleConfig], by norm_num [sampleConfig],
    eyc_delay_unclamped sampleConfig (by norm_num [sampleConfig])
      (by norm_num [sampleConfig])⟩

/-- C3, counterexample: no cap bounds the ENHANCE_YOUR_CALM delays: for any
candidate cap, some reconnecting-in message of the pure rate-limit failure
run carries a delay above it, so the claim that the delay is clamped at a
maximum cap is false for the modelled session. -/
theorem eyc_cap_counterexample :
    ¬ ∃ cap : ℚ, ∀ (k : Nat) (d : ℚ) (e : Option ErrorKind),
        (run sampleConfig
            (mkSession (List.replicate (k + 1) (statusOut 429)))
            (2 * k + 3)).get? (2 * k + 1)
          = some (.reconnectingIn d e) → d ≤ cap := by
  rintro ⟨cap, hcap⟩
  obtain ⟨m, hm⟩ := pow_unbounded_of_one_lt (cap / 60) (by norm_num : (1 : ℚ) < 2)
  have hdelay := run_retry_delay_at sampleConfig 429 .ENHANCE_YOUR_CALM
    (by decide) (by decide) m
  rw [last_delay_eq sampleConfig .ENHANCE_YOUR_CALM m _
    (failDelays_eyc sampleConfig (by norm_num [sampleConfig]) (m + 1))] at hdelay
  have hle := hcap m _ _ hdelay
  have h60 : sampleConfig.enhanceYourCalmTimeout = 60 := rfl
  rw [h60] at hle
  rw [div_lt_iff (by norm_num : (0 : ℚ) < 60)] at hm
  linarith

/-- C2: after the initial connected message, a script of N consecutive
disconnection failures followed by one successful connection produces
exactly N alternating reconnecting-in and stream-restart pairs and then the
first decoded data message. -/
theorem disconnection_trace (cfg : BackoffConfig) (N : Nat) (payload : String)
    (hka : isKeepAlive payload = false)
    (hsl : isStreamLimitLine payload = false) :
    run cfg
        (mkSession (List.replicate N (statusOut 500)
          ++ [⟨200, [.line payload]⟩])) (2 * N + 2)
      = .connected :: pairTrace (failDelays cfg .DISCONNECTION 0 N)
          ++ [.data payload]
    ∧ (failDelays cfg .DISCONNECTION 0 N).length = N := by
  refine ⟨?_, failDelays_length cfg .DISCONNECTION N 0⟩
  cases N with
  | zero =>
      rw [show 2 * 0 + 2 = 1 + 1 from rfl]
      simp only [List.replicate, List.nil_append]
      rw [run_succ, step_connect_success cfg 200 (by decide)]
      dsimp only
      rw [run_succ, step_data cfg 0 payload hka hsl]
      dsimp only
      simp [failDelays, pairTrace, run]
  | succ K =>
      have hf : 2 * (K + 1) + 2 = (2 * K + 3) + 1 := by ring
      rw [hf, List.replicate_succ, List.cons_append,
        show statusOut 500 = (⟨500, []⟩ : ConnOutcome) from rfl, run_succ,
        step_connect_retry cfg 500 .DISCONNECTION (by decide) (by decide)]
      dsimp only
      have hr := run_retry cfg 500 .DISCONNECTION (by decide) (by decide) K 0 3
        [⟨200, [.line payload]⟩]
      simp only [statusOut] at hr
      rw [hr]
      have htail : run cfg
          ⟨.DISCONNECTION, failIter cfg .DISCONNECTION 0 K, false, some [],
            [⟨200, [.line payload]⟩]⟩ 3
          = [.reconnectingIn
              (nextErrorTimeout cfg .DISCONNECTION
                (failIter cfg .DISCONNECTION 0 K)) none,
             .streamRestart, .data payload] := by
        rw [run_succ, step_initRestart cfg .DISCONNECTION _ _ _ (by decide)]
        dsimp only
        rw [run_succ, step_restart_success cfg 200 (by decide)]
        dsimp only
        rw [run_succ, step_data cfg 0 payload hka hsl]
        dsimp only
        rfl
      rw [htail, failDelays_snoc cfg .DISCONNECTION K 0, pairTrace_append]
      simp [pairTrace]

/-- Witness for C2 with two scripted disconnections and a concrete
payload. -/
theorem disconnection_trace_witness :
    isKeepAlive "payload" = false
    ∧ isStreamLimitLine "payload" = false
    ∧ (run sampleConfig
          (mkSession (List.replicate 2 (statusOut 500)
            ++ [⟨200, [.line "payload"]⟩])) (2 * 2 + 2)
        = .connected :: pairTrace (failDelays sampleConfig .DISCONNECTION 0 2)
            ++ [.data "payload"]
      ∧ (failDelays sampleConfig .DISCONNECTION 0 2).length = 2) :=
  ⟨by decide, by decide,
    disconnection_trace sampleConfig 2 "payload" (by decide) (by decide)⟩

/-- C4: a fatal status on the initial connection fails immediately with its
typed error kind, enters no retry state and produces no messages at all: no
reconnection is ever attempted. -/
theorem fatal_connect_no_retry (cfg : BackoffConfig) (status : Nat)
    (hf : isFatalStatus status = true) (evs : List LineEvent)
    (rest : List ConnOutcome) :
    step cfg (mkSession (⟨status, evs⟩ :: rest)) = .fatalStop (fatalKind status)
    ∧ ∀ n : Nat, run cfg (mkSession (⟨status, evs⟩ :: rest)) n = [] := by
  have hc : classifyStatus status = .fatalError (fatalKind status) := by
    unfold isFatalStatus at hf
    unfold classifyStatus at hf ⊢
    split_ifs at hf ⊢
    simp_all
  have hstep : step cfg (mkSession (⟨status, evs⟩ :: rest))
      = .fatalStop (fatalKind status) := by
    simp [step, mkSession, connectAttempt, hc]
  refine ⟨hstep, ?_⟩
  intro n
  cases n with
  | zero => rfl
  | succ n => rw [run_succ, hstep]

/-- Witness for C4 at the forbidden status. -/
theorem fatal_connect_no_retry_witness :
    isFatalStatus 403 = true
    ∧ fatalKind 403 = ErrorKind.Forbidden
    ∧ step sampleConfig (mkSession [⟨403, []⟩]) = .fatalStop (fatalKind 403)
    ∧ ∀ n : Nat, run sampleConfig (mkSession [⟨403, []⟩]) n = [] :=
  ⟨by decide, by decide,
    fatal_connect_no_retry sampleConfig 403 (by decide) [] []⟩

/-- C5: a payload line announcing the exceeded concurrent-stream cap moves a
NORMAL session to the ERROR state and schedules the fixed error timeout,
carrying the stream-limit error kind. -/
theorem stream_limit_enters_error (cfg : BackoffConfig) (s : StreamResponse)
    (tl : List LineEvent) (h1 : s.state = .NORMAL) (h2 : s.reconnecting = false)
    (h3 : s.current = some (.line rateLimitNotice :: tl)) :
    step cfg s
      = .msg (.reconnectingIn cfg.errorTimeout (some .StreamLimit))
          { s with state := .ERROR, errorTimeout := cfg.errorTimeout,
                   reconnecting := true, current := none } := by
  have hka : isKeepAlive rateLimitNotice = false := by decide
  have hsl : isStreamLimitLine rateLimitNotice = true := by decide
  obtain ⟨st, t, rc, cur, sc⟩ := s
  dsimp only at h1 h2 h3
  subst h1; subst h2; subst h3
  simp [step, pullLine, hka, hsl]

/-- Witness for C5 on a concrete session holding the stream-limit line. -/
theorem stream_limit_enters_error_witness :
    (⟨.NORMAL, 0, false, some [.line rateLimitNotice], []⟩
        : StreamResponse).state = .NORMAL
    ∧ step sampleConfig ⟨.NORMAL, 0, false, some [.line rateLimitNotice], []⟩
        = .msg (.reconnectingIn sampleConfig.errorTimeout (some .StreamLimit))
            ⟨.ERROR, sampleConfig.errorTimeout, true, none, []⟩ :=
  ⟨rfl, stream_limit_enters_error sampleConfig
    ⟨.NORMAL, 0, false, some [.line rateLimitNotice], []⟩ [] rfl rfl rfl⟩

/-- C7: the very first message produced by a session whose initial
connection succeeds with a 2xx status is the synthetic connected control
message; nothing precedes it. -/
theorem first_message_connected (cfg : BackoffConfig) (status : Nat)
    (h1 : 200 ≤ status) (h2 : status < 300) (evs : List LineEvent)
    (rest : List ConnOutcome) (n : Nat) :
    (run cfg (mkSession (⟨status, evs⟩ :: rest)) (n + 1)).head?
      = some .connected := by
  have hc : classifyStatus status = .success := by
    unfold classifyStatus
    rw [if_pos ⟨h1, h2⟩]
  rw [run_succ, step_connect_success cfg status hc]
  rfl

/-- Witness for C7 at status 200. -/
theorem first_message_connected_witness :
    200 ≤ 200 ∧ 200 < 300
    ∧ (run sampleConfig (mkSession [⟨200, []⟩]) (0 + 1)).head?
        = some Message.connected :=
  ⟨by decide, by decide,
    first_message_connected sampleConfig 200 (by decide) (by decide) [] [] 0⟩

/-- C8: a transport exception from the handled set raised while pulling a
line yields the reconnecting-in control message with the fixed error timeout
and no error kind, moving to the ERROR state instead of failing fatally. -/
theorem handled_error_reconnect (cfg : BackoffConfig) (s : StreamResponse)
    (e : TransportExc) (tl : List LineEvent)
    (hh : isHandled e = true) (h1 : s.state = .NORMAL)
    (h2 : s.reconnecting = false) (h3 : s.current = some (.exc e :: tl)) :
    step cfg s
      = .msg (.reconnectingIn cfg.errorTimeout none)
          { s with state := .ERROR, errorTimeout := cfg.errorTimeout,
                   reconnecting := true, current := none } := by
  obtain ⟨st, t, rc, cur, sc⟩ := s
  dsimp only at h1 h2 h3
  subst h1; subst h2; subst h3
  simp [step, pullLine, hh]

/-- Witness for C8 at the client-connection error. -/
theorem handled_error_reconnect_witness :
    isHandled TransportExc.clientConnectionError = true
    ∧ step sampleConfig
        ⟨.NORMAL, 0, false, some [.exc .clientConnectionError], []⟩
        = .msg (.reconnectingIn sampleConfig.errorTimeout none)
            ⟨.ERROR, sampleConfig.errorTimeout, true, none, []⟩ :=
  ⟨rfl, handled_error_reconnect sampleConfig
    ⟨.NORMAL, 0, false, some [.exc .clientConnectionError], []⟩
    .clientConnectionError [] rfl rfl rfl rfl⟩

/-- Data messages are only ever produced by the line puller with a NORMAL
state and a zero retry counter in the successor session. -/
lemma pullLine_data_inv (cfg : BackoffConfig) (s : StreamResponse) :
    ∀ (evs : List LineEvent) (p : String) (s2 : StreamResponse),
      pullLine cfg s evs = .msg (.data p) s2 →
      s2.state = .NORMAL ∧ s2.errorTimeout = 0
  | [], p, s2 => by
      intro h
      simp [pullLine] at h
  | .exc e :: tl, p, s2 => by
      intro h
      cases he : isHandled e <;> simp [pullLine, he] at h
  | .line str :: tl, p, s2 => by
      intro h
      cases hka : isKeepAlive str with
      | true =>
          rw [pullLine] at h
          simp only [hka, if_true] at h
          exact pullLine_data_inv cfg s tl p s2 h
      | false =>
          cases hsl : isStreamLimitLine str with
          | true => simp [pullLine, hka, hsl] at h
          | false =>
              rw [pullLine] at h
              simp only [hka, hsl, if_false, Bool.false_eq_true] at h
              obtain ⟨hm, hs2⟩ := Pull.msg.inj h
              subst hs2
              exact ⟨rfl, rfl⟩

/-- C6: every successful line pull resets the retry counter to zero and
leaves the session in the NORMAL state, whatever the previous state was;
entering a different failure state resets the counter, so the first
reconnecting-in message after a state change carries the base timeout of
the new state, illustrated by a disconnection followed by a rate-limit
status. -/
theorem success_resets_counter (cfg : BackoffConfig) :
    (∀ (s s2 : StreamResponse) (p : String),
      step cfg s = .msg (.data p) s2 →
      s2.state = .NORMAL ∧ s2.errorTimeout = 0)
    ∧ (∀ (s s2 : StreamResponse) (o : ConnOutcome) (st : StreamState),
        s.state ≠ st → classifyStatus o.status = .retry st →
        connectAttempt s o = .ok s2 → s2.errorTimeout = 0)
    ∧ (0 < cfg.enhanceYourCalmTimeout →
        run cfg (mkSession [⟨500, []⟩, ⟨429, []⟩]) 4
          = [.connected,
             .reconnectingIn
               (min cfg.disconnectionTimeout cfg.maxDisconnectionTimeout) none,
             .streamRestart,
             .reconnectingIn cfg.enhanceYourCalmTimeout none]) := by
  refine ⟨?_, ?_, ?_⟩
  · intro s s2 p h
    obtain ⟨st, t, rc, cur, sc⟩ := s
    cases rc with
    | true =>
        cases sc with
        | nil => simp [step] at h
        | cons o rest =>
            simp only [step] at h
            rcases hca : connectAttempt ⟨st, t, false, cur, rest⟩ o with k | s3 <;>
              simp [hca] at h
    | false =>
        cases cur with
        | none =>
            cases sc with
            | nil => simp [step] at h
            | cons o rest =>
                simp only [step] at h
                rcases hca : connectAttempt ⟨st, t, false, none, rest⟩ o with k | s3 <;>
                  simp [hca] at h
        | some evs =>
            simp only [step] at h
            by_cases hst : st = StreamState.NORMAL
            · rw [if_pos hst] at h
              exact pullLine_data_inv cfg _ evs p s2 h
            · rw [if_neg hst] at h
              unfold initRestart at h
              simp at h
  · intro s s2 o st hne hcl hca
    unfold connectAttempt at hca
    rw [hcl] at hca
    simp only [Except.ok.injEq] at hca
    subst hca
    unfold setState
    rw [if_neg (by exact fun hx => hne hx)]
  · intro hb
    rw [show (4 : Nat) = 3 + 1 from rfl, run_succ,
      step_connect_retry cfg 500 .DISCONNECTION (by decide) (by decide)]
    dsimp only
    rw [show (3 : Nat) = 2 + 1 from rfl, run_succ,
      step_initRestart cfg .DISCONNECTION 0 _ _ (by decide)]
    dsimp only
    have hstep3 : step cfg
        ⟨.DISCONNECTION, nextErrorTimeout cfg .DISCONNECTION 0, true, some [],
          [⟨429, []⟩]⟩
        = .msg .streamRestart ⟨.ENHANCE_YOUR_CALM, 0, false, some [], []⟩ := by
      simp [step, connectAttempt, classifyStatus, setState]
    rw [show (2 : Nat) = 1 + 1 from rfl, run_succ, hstep3]
    dsimp only
    rw [run_succ, step_initRestart cfg .ENHANCE_YOUR_CALM 0 _ _ (by decide)]
    dsimp only
    rw [show nextErrorTimeout cfg .ENHANCE_YOUR_CALM 0
        = cfg.enhanceYourCalmTimeout from by
      rw [nextErrorTimeout, if_pos hb]]
    rw [show nextErrorTimeout cfg .DISCONNECTION 0
        = min cfg.disconnectionTimeout cfg.maxDisconnectionTimeout from by
      rw [nextErrorTimeout, zero_add]]
    rfl

/-- Witness for C6: the scripted state change carries the uninflated base
timeout of the new state. -/
theorem success_resets_counter_witness :
    (0 : ℚ) < sampleConfig.enhanceYourCalmTimeout
    ∧ run sampleConfig (mkSession [⟨500, []⟩, ⟨429, []⟩]) 4
        = [.connected,
           .reconnectingIn
             (min sampleConfig.disconnectionTimeout
               sampleConfig.maxDisconnectionTimeout) none,
           .streamRestart,
           .reconnectingIn sampleConfig.enhanceYourCalmTimeout none] :=
  ⟨by norm_num [sampleConfig],
    (success_resets_counter sampleConfig).2.2 (by norm_num [sampleConfig])⟩

/-- C10: a JSONObject is read-only and attribute access mirrors item access:
a present key yields the same value through attribute and item access, an
absent key raises AttributeError on attribute access, and every attribute or
item mutation raises AttributeError, producing no modified mapping. -/
theorem jsonobject_read_only (α : Type) (o : JSONObject α) (k : String)
    (v : α) :
    (getAttr o k = .value v ↔ getItem o k = some v)
    ∧ (getItem o k = none → getAttr o k = .attributeError)
    ∧ setAttr o k v = .attributeError
    ∧ delAttr o k = .attributeError
    ∧ setItem o k v = .attributeError
    ∧ delItem o k = .attributeError := by
  refine ⟨?_, ?_, rfl, rfl, rfl, rfl⟩
  · unfold getAttr
    rcases h : getItem o k with _ | w <;> simp
  · intro h
    unfold getAttr
    rw [h]

/-- Witness for C10 on a one-entry mapping. -/
theorem jsonobject_read_only_witness :
    getAttr (⟨[("key", true)]⟩ : JSONObject Bool) "key" = .value true
    ∧ getAttr (⟨[("key", true)]⟩ : JSONObject Bool) "missing"
        = .attributeError
    ∧ setAttr (⟨[("key", true)]⟩ : JSONObject Bool) "key" false
        = .attributeError :=
  ⟨((jsonobject_read_only Bool ⟨[("key", true)]⟩ "key" true).1).mpr rfl,
   (jsonobject_read_only Bool ⟨[("key", true)]⟩ "missing" true).2.1 rfl,
   (jsonobject_read_only Bool ⟨[("key", true)]⟩ "key" false).2.2.1⟩

end Peony
